import Mathlib

/-!
Verification of the Run Execution Coordinator (`PerformRunExecutionV3Service`).

This file gives a shallow embedding of the coordinator's execute/preprocess
drivers and of the response handlers (`#completeRunWithSuccess`,
`#resumeRunWithTask`, `#resumeParallelRunWithTask`, `#resumeYieldedRun`,
`#resumeAutoYieldedRun`, `#resumeAutoYieldedRunWithCompletedTask`,
`#retryRunWithTask`, `#resumeRunExecutionAfterTimeout`, `#failRunExecution`).
The relational store is modelled as an explicit `DB` record; every external
call (queue enqueue, telemetry, task-completion service, endpoint HTTP call)
is recorded in the state so that theorems can speak about which calls were
issued.  Timestamps are `Nat`s supplied by the caller ("now"); durations are
milliseconds as `Nat`s.  Constants imported from the application's `consts`
module (`MAX_RUN_YIELDED_EXECUTIONS`, `MAX_RUN_CHUNK_EXECUTION_LIMIT`,
`RUN_CHUNK_EXECUTION_BUFFER`) are threaded in a `Consts` record.
-/

namespace TriggerRunExec

/-- Status of a job run. -/
inductive RunStatus
  | QUEUED | STARTED | WAITING_TO_RESUME | SUCCESS | FAILURE | ABORTED
  | TIMED_OUT | UNRESOLVED_AUTH | INVALID_PAYLOAD | CANCELED
  deriving DecidableEq, Repr

/-- Status of a task. -/
inductive TaskStatus
  | PENDING | WAITING | RUNNING | COMPLETED | ERRORED | CANCELED
  deriving DecidableEq, Repr

/-- Status of a task attempt. -/
inductive AttemptStatus
  | PENDING | ERRORED
  deriving DecidableEq, Repr

/-- Subscription event kinds of `JobRunSubscription`. -/
inductive SubscriptionEvent
  | SUCCESS | FAILURE
  deriving DecidableEq, Repr

/-- Runtime environment type (only DEVELOPMENT is distinguished by the code). -/
inductive EnvType
  | DEVELOPMENT | PRODUCTION
  deriving DecidableEq, Repr

/-- The scalar columns of a `JobRun` row that the coordinator reads/writes. -/
structure JobRun where
  id : String
  status : RunStatus
  startedAt : Option Nat
  completedAt : Option Nat
  executionCount : Nat
  executionDuration : Nat
  yieldedExecutions : List String
  output : Option String
  properties : Option String
  forceYieldImmediately : Bool
  organizationId : String
  internal : Bool
  deriving DecidableEq, Repr

/-- A `Task` row (the columns the coordinator touches). -/
structure Task where
  id : String
  idempotencyKey : String
  status : TaskStatus
  noop : Bool
  output : Option String
  outputProperties : Option String
  completedAt : Option Nat
  createdAt : Nat
  name : String
  displayKey : Option String
  deriving DecidableEq, Repr

/-- A `TaskAttempt` row. -/
structure TaskAttempt where
  id : Nat
  taskId : String
  number : Nat
  status : AttemptStatus
  runAt : Option Nat
  error : Option String
  deriving DecidableEq, Repr

/-- An `Endpoint` row's fields used by the coordinator. -/
structure Endpoint where
  id : String
  url : String
  version : String
  runChunkExecutionLimit : Nat
  deriving DecidableEq, Repr

/-- Organisation limits read by the coordinator. -/
structure Organization where
  id : String
  maximumExecutionTimePerRunInMs : Nat
  deriving DecidableEq, Repr

/-- A `JobRunSubscription` row. -/
structure JobRunSubscription where
  runId : String
  recipient : String
  recipientMethod : String
  event : SubscriptionEvent
  status : String
  deriving DecidableEq, Repr

/-- An `AutoYieldExecution` row created when the endpoint auto-yields. -/
structure AutoYieldRow where
  location : String
  timeRemaining : Nat
  timeElapsed : Nat
  limit : Nat
  deriving DecidableEq, Repr

/-- Jobs handed to the durable queue (`enqueueRunExecutionV3`,
`workerQueue.enqueue "deliverRunSubscriptions"`, `ResumeTaskService.enqueue`). -/
inductive EnqueuedJob
  | executeRun (runId : String) (skipRetrying : Bool)
  | deliverRunSubscriptions (runId : String)
  | resumeTask (taskId : String) (runAt : Option Nat)
  deriving DecidableEq, Repr

/-- The persisted state visible to one run's coordinator, plus logs of the
calls issued to external collaborators. -/
structure DB where
  run : JobRun
  tasks : List Task
  attempts : List TaskAttempt
  endpoint : Endpoint
  organization : Organization
  environmentType : EnvType
  subscriptions : List JobRunSubscription
  autoYields : List AutoYieldRow
  queue : List EnqueuedJob
  endpointCalls : Nat
  telemetry : Nat
  completeTaskCalls : List String
  deriving DecidableEq, Repr

/-- Constants imported from the application's `consts` module. -/
structure Consts where
  MAX_RUN_YIELDED_EXECUTIONS : Nat
  MAX_RUN_CHUNK_EXECUTION_LIMIT : Nat
  RUN_CHUNK_EXECUTION_BUFFER : Nat
  deriving DecidableEq, Repr

/-- The loaded run aggregate (`FoundRun` = non-null result of `findRun`):
run scalars plus the included relations the handlers read. -/
structure FoundRun where
  run : JobRun
  endpoint : Endpoint
  organization : Organization
  environmentType : EnvType
  subscriptions : List JobRunSubscription
  completedTasks : List Task
  taskCount : Nat
  deriving DecidableEq, Repr

/-- Source `findRun`: loads the run aggregate in one read.  Subscriptions are
restricted to `recipientMethod = "ENDPOINT"`; the included tasks are only the
`COMPLETED` ones, ordered ascending by id; `taskCount` is `_count.tasks`. -/
def findRun (db : DB) : FoundRun :=
  { run := db.run
    endpoint := db.endpoint
    organization := db.organization
    environmentType := db.environmentType
    subscriptions := db.subscriptions.filter (fun s => s.recipientMethod == "ENDPOINT")
    completedTasks :=
      (db.tasks.filter (fun t => t.status == TaskStatus.COMPLETED)).mergeSort
        (fun a b => a.id ≤ b.id)
    taskCount := db.tasks.length }

/-- Reason tag of a delivered work item (`PerformRunExecutionV3Input.reason`),
also the discriminator of `#failRunExecution`. -/
inductive RunReason
  | PREPROCESS | EXECUTE_JOB
  deriving DecidableEq, Repr

/-- Replace the task row with the given id (Prisma `task.update where id`). -/
def updateTaskRow (tasks : List Task) (tid : String) (f : Task → Task) : List Task :=
  tasks.map (fun t => if t.id == tid then f t else t)

/-- Source `#failRunExecution(prisma, reason, run, output, status, durationInMs)`.
`output : Option String` models the JS `Record | undefined` argument: an
`undefined` field in a Prisma update leaves the column unchanged.  Source
defaults: `status = "FAILURE"`, `durationInMs = 0`. -/
def failRunExecution (fr : FoundRun) (reason : RunReason) (output : Option String)
    (status : RunStatus) (durationInMs : Nat) (now : Nat) (db : DB) : DB :=
  match reason with
  | .EXECUTE_JOB =>
    let failTask : Task → Task := fun t =>
      if t.status == .WAITING || t.status == .RUNNING || t.status == .PENDING then
        { t with
          status := if status == .TIMED_OUT then .CANCELED else .ERRORED
          completedAt := some now }
      else t
    let run1 := { db.run with
      completedAt := some now
      status := status
      output := (match output with | some o => some o | none => db.run.output)
      executionDuration := db.run.executionDuration + durationInMs
      forceYieldImmediately := false }
    let db := { db with run := run1, tasks := db.tasks.map failTask }
    { db with queue := db.queue ++ [.deliverRunSubscriptions fr.run.id] }
  | .PREPROCESS =>
    if status == .ABORTED then
      let run1 := { db.run with
        completedAt := some now
        status := status
        output := (match output with | some o => some o | none => db.run.output) }
      { db with run := run1 }
    else
      let db := { db with run := { db.run with status := .STARTED, startedAt := some now } }
      { db with queue := db.queue ++
          [.executeRun fr.run.id (fr.environmentType == .DEVELOPMENT)] }

/-- Source `#completeRunWithSuccess`: terminal SUCCESS transition plus the
`deliverRunSubscriptions` enqueue, in one transaction. -/
def completeRunWithSuccess (fr : FoundRun) (output : Option String) (durationInMs : Nat)
    (now : Nat) (db : DB) : DB :=
  let run1 := { db.run with
    completedAt := some now
    status := .SUCCESS
    output := (match output with | some o => some o | none => db.run.output)
    executionDuration := db.run.executionDuration + durationInMs }
  let db := { db with run := run1 }
  { db with queue := db.queue ++ [.deliverRunSubscriptions fr.run.id] }

/-- The task payload of a `RESUME_WITH_TASK` response (fields the handler
reads; `hasOperation`/`hasCallbackUrl` model presence of `operation` /
`callbackUrl`). -/
structure ResumeTaskData where
  id : String
  outputProperties : Option String
  hasOperation : Bool
  hasCallbackUrl : Bool
  delayUntil : Option Nat
  deriving DecidableEq, Repr

/-- Source `#resumeRunWithTask`.  Source default: `executionCount = 1`. -/
def resumeRunWithTask (fr : FoundRun) (task : ResumeTaskData) (durationInMs : Nat)
    (executionCount : Nat) (db : DB) : DB :=
  let run1 := { db.run with
    executionDuration := db.run.executionDuration + durationInMs
    executionCount := db.run.executionCount + executionCount }
  let db := { db with run := run1 }
  let db := match task.outputProperties with
    | some props =>
      { db with tasks := (updateTaskRow db.tasks task.id (fun t => { t with outputProperties := some props })) }
    | none => db
  if !task.hasOperation && !task.hasCallbackUrl then
    { db with queue := db.queue ++ [.resumeTask task.id task.delayUntil] }
  else db

/-- Interpolated message of the yield-ceiling failure. -/
def yieldLimitMessage (maxYields : Nat) : String :=
  s!"Run has yielded too many times, the maximum is {maxYields}"

/-- Source `#resumeYieldedRun`.  Source default: `executionCount = 1`.  Note the
ceiling test reads the loaded snapshot `fr.run.yieldedExecutions`. -/
def resumeYieldedRun (C : Consts) (fr : FoundRun) (key : String) (durationInMs : Nat)
    (executionCount : Nat) (now : Nat) (db : DB) : DB :=
  if fr.run.yieldedExecutions.length + 1 > C.MAX_RUN_YIELDED_EXECUTIONS then
    failRunExecution fr .EXECUTE_JOB (some (yieldLimitMessage C.MAX_RUN_YIELDED_EXECUTIONS))
      .FAILURE durationInMs now db
  else
    let run1 := { db.run with
      executionDuration := db.run.executionDuration + durationInMs
      executionCount := db.run.executionCount + executionCount
      yieldedExecutions := db.run.yieldedExecutions ++ [key]
      forceYieldImmediately := false }
    let db := { db with run := run1 }
    { db with queue := db.queue ++
        [.executeRun fr.run.id (fr.environmentType == .DEVELOPMENT)] }

/-- Payload `AutoYieldMetadata` of an `AUTO_YIELD_EXECUTION` response. -/
structure AutoYieldMetadata where
  location : String
  timeRemaining : Nat
  timeElapsed : Nat
  limit : Option Nat
  deriving DecidableEq, Repr

/-- Source `#resumeAutoYieldedRun`.  Source default: `executionCount = 1`. -/
def resumeAutoYieldedRun (fr : FoundRun) (data : AutoYieldMetadata) (durationInMs : Nat)
    (executionCount : Nat) (db : DB) : DB :=
  let run1 := { db.run with
    executionDuration := db.run.executionDuration + durationInMs
    executionCount := db.run.executionCount + executionCount
    forceYieldImmediately := false }
  let row : AutoYieldRow := {
    location := data.location
    timeRemaining := data.timeRemaining
    timeElapsed := data.timeElapsed
    limit := data.limit.getD 0 }
  let db := { db with run := run1, autoYields := db.autoYields ++ [row] }
  { db with queue := db.queue ++
      [.executeRun fr.run.id (fr.environmentType == .DEVELOPMENT)] }

/-- Payload of `AUTO_YIELD_EXECUTION_WITH_COMPLETED_TASK`. -/
structure AutoYieldCompletedTask where
  id : String
  properties : Option String
  output : Option String
  data : AutoYieldMetadata
  deriving DecidableEq, Repr

/-- Source `#resumeAutoYieldedRunWithCompletedTask`: auto-yield bookkeeping, then the
external `CompleteRunTaskService` call (recorded in `completeTaskCalls`), then
a new EXECUTE_JOB enqueue.  Source default: `executionCount = 1`. -/
def resumeAutoYieldedRunWithCompletedTask (fr : FoundRun) (data : AutoYieldCompletedTask)
    (durationInMs : Nat) (executionCount : Nat) (db : DB) : DB :=
  let run1 := { db.run with
    executionDuration := db.run.executionDuration + durationInMs
    executionCount := db.run.executionCount + executionCount
    forceYieldImmediately := false }
  let row : AutoYieldRow := {
    location := data.data.location
    timeRemaining := data.data.timeRemaining
    timeElapsed := data.data.timeElapsed
    limit := data.data.limit.getD 0 }
  let db := { db with run := run1, autoYields := db.autoYields ++ [row] }
  let db := { db with completeTaskCalls := db.completeTaskCalls ++ [data.id] }
  { db with queue := db.queue ++
      [.executeRun fr.run.id (fr.environmentType == .DEVELOPMENT)] }

/-- Payload of a `RETRY_WITH_TASK` response. -/
structure RetryTaskData where
  taskId : String
  error : String
  retryAt : Nat
  deriving DecidableEq, Repr

/-- Query `taskAttempt.findFirst where {taskId, status: PENDING} orderBy number desc`:
the PENDING attempt for the task with the greatest number, if any. -/
def latestPendingAttempt (attempts : List TaskAttempt) (taskId : String) : Option TaskAttempt :=
  (attempts.filter (fun a => a.taskId == taskId && a.status == AttemptStatus.PENDING)).foldl
    (fun acc a => match acc with
      | none => some a
      | some b => if b.number < a.number then some a else some b) none

/-- External `formatError` utility (`~/utils/formatErrors.server`); its content
is irrelevant to the claims, only that the errored attempt stores its result. -/
def formatError (e : String) : String := e

/-- A fresh store-assigned id for a created attempt row. -/
def freshAttemptId (attempts : List TaskAttempt) : Nat :=
  (attempts.map (fun a => a.id)).foldl (fun m i => max m (i + 1)) 0

/-- Source `#retryRunWithTask`.  Source default: `executionCount = 1`. -/
def retryRunWithTask (fr : FoundRun) (data : RetryTaskData) (durationInMs : Nat)
    (executionCount : Nat) (db : DB) : DB :=
  let existing := latestPendingAttempt db.attempts data.taskId
  let markErrored : TaskAttempt → TaskAttempt → TaskAttempt := fun a b =>
    if b.id == a.id then
      { b with status := .ERRORED, error := some (formatError data.error) }
    else b
  let db := match existing with
    | some a => { db with attempts := db.attempts.map (markErrored a) }
    | none => db
  let newAttempt : TaskAttempt := {
    id := freshAttemptId db.attempts
    taskId := data.taskId
    number := (match existing with | some a => a.number + 1 | none => 1)
    status := .PENDING
    runAt := some data.retryAt
    error := none }
  let db := { db with attempts := db.attempts ++ [newAttempt] }
  let run1 := { db.run with
    executionDuration := db.run.executionDuration + durationInMs
    executionCount := db.run.executionCount + executionCount }
  let db := { db with
    tasks := (updateTaskRow db.tasks data.taskId (fun t => { t with status := .WAITING }))
    run := run1 }
  { db with queue := db.queue ++ [.resumeTask data.taskId (some data.retryAt)] }

/-- Query `tasks take 1 orderBy createdAt desc` on the re-read run: the task with the
greatest `createdAt`, if any. -/
def latestTaskByCreatedAt (tasks : List Task) : Option Task :=
  tasks.foldl (fun acc t => match acc with
    | none => some t
    | some b => if b.createdAt < t.createdAt then some t else some b) none

/-- Source `#resumeRunExecutionAfterTimeout`.  The cumulative-limit test reads the
snapshot `fr.run.executionDuration`; the progress test compares the current
task count against the snapshot `fr.taskCount`.  (The source's unused
`executionCount` argument is omitted.) -/
def resumeRunExecutionAfterTimeout (C : Consts) (fr : FoundRun) (durationInMs : Nat)
    (now : Nat) (db : DB) : DB :=
  let executionDuration := fr.run.executionDuration + durationInMs
  if executionDuration ≥ fr.organization.maximumExecutionTimePerRunInMs then
    let secs := fr.organization.maximumExecutionTimePerRunInMs / 1000
    failRunExecution fr .EXECUTE_JOB (some s!"Execution timed out after {secs} seconds")
      .TIMED_OUT durationInMs now db
  else if db.tasks.length == fr.taskCount then
    let cause := match latestTaskByCreatedAt db.tasks with
      | some t =>
        if t.status == TaskStatus.RUNNING then
          let key := t.displayKey.getD t.name
          s!"This is likely caused by task \"{key}\" execution exceeding the function timeout"
        else
          "This is likely caused by executing code outside of a task that exceeded the function timeout"
      | none =>
        "This is likely caused by executing code outside of a task that exceeded the function timeout"
    let secs := durationInMs / 1000
    failRunExecution fr .EXECUTE_JOB
      (some s!"Function timeout detected in {secs}s without any task creation. This is unexpected behavior and could lead to an infinite execution error because the run will never finish. {cause}")
      .TIMED_OUT durationInMs now db
  else
    let run1 := { db.run with
      executionDuration := db.run.executionDuration + durationInMs
      forceYieldImmediately := false }
    let ep1 := { db.endpoint with
      runChunkExecutionLimit := min (max durationInMs 10000) C.MAX_RUN_CHUNK_EXECUTION_LIMIT }
    let db := { db with run := run1, endpoint := ep1 }
    { db with queue := db.queue ++
        [.executeRun fr.run.id (fr.environmentType == .DEVELOPMENT)] }

/-- Source `#failRunWithError`: if the `ERROR` body names a task, mark it errored,
then fail the run with the error payload. -/
def failRunWithError (fr : FoundRun) (taskId : Option String) (error : Option String)
    (durationInMs : Nat) (now : Nat) (db : DB) : DB :=
  let errTask : Task → Task := fun t =>
    { t with
      status := .ERRORED
      completedAt := some now
      output := (match error with | some e => some e | none => t.output) }
  let db := match taskId with
    | some tid => { db with tasks := updateTaskRow db.tasks tid errTask }
    | none => db
  failRunExecution fr .EXECUTE_JOB error .FAILURE durationInMs now db

/-- Source `#failRunWithUnresolvedAuthError`. -/
def failRunWithUnresolvedAuthError (fr : FoundRun) (issues : String) (durationInMs : Nat)
    (now : Nat) (db : DB) : DB :=
  failRunExecution fr .EXECUTE_JOB (some issues) .UNRESOLVED_AUTH durationInMs now db

/-- Source `#failRunWithInvalidPayloadError`. -/
def failRunWithInvalidPayloadError (fr : FoundRun) (errors : String) (durationInMs : Nat)
    (now : Nat) (db : DB) : DB :=
  failRunExecution fr .EXECUTE_JOB (some errors) .INVALID_PAYLOAD durationInMs now db

/-- One element of the `childErrors` array of a `RESUME_WITH_PARALLEL_TASK`
response (a tagged union over the nine child statuses the handler switches on). -/
inductive ChildError
  | autoYieldExecution (m : AutoYieldMetadata)
  | autoYieldWithCompletedTask (d : AutoYieldCompletedTask)
  | canceled
  | error (err : Option String)
  | invalidPayload (errors : String)
  | resumeWithTask (t : ResumeTaskData)
  | retryWithTask (r : RetryTaskData)
  | unresolvedAuth (issues : String)
  | yieldExecution (key : String)
  deriving DecidableEq, Repr

/-- The `for (const childError of data.childErrors)` loop of
`#resumeParallelRunWithTask`: non-terminal children are dispatched to their
handler with `durationInMs = 0` and `executionCount = 0`; `CANCELED` children
are skipped; `ERROR`/`INVALID_PAYLOAD`/`UNRESOLVED_AUTH_ERROR` children call
`#failRunExecution` with the parent `durationInMs` and return, ending the loop. -/
def processChildErrors (C : Consts) (fr : FoundRun) (durationInMs : Nat) (now : Nat) :
    List ChildError → DB → DB
  | [], db => db
  | ce :: rest, db =>
    match ce with
    | .autoYieldExecution m =>
      processChildErrors C fr durationInMs now rest (resumeAutoYieldedRun fr m 0 0 db)
    | .autoYieldWithCompletedTask d =>
      processChildErrors C fr durationInMs now rest
        (resumeAutoYieldedRunWithCompletedTask fr d 0 0 db)
    | .canceled => processChildErrors C fr durationInMs now rest db
    | .error err =>
      failRunExecution fr .EXECUTE_JOB err .FAILURE durationInMs now db
    | .invalidPayload errors =>
      failRunExecution fr .EXECUTE_JOB (some errors) .INVALID_PAYLOAD durationInMs now db
    | .resumeWithTask t =>
      processChildErrors C fr durationInMs now rest (resumeRunWithTask fr t 0 0 db)
    | .retryWithTask r =>
      processChildErrors C fr durationInMs now rest (retryRunWithTask fr r 0 0 db)
    | .unresolvedAuth issues =>
      failRunExecution fr .EXECUTE_JOB (some issues) .UNRESOLVED_AUTH durationInMs now db
    | .yieldExecution key =>
      processChildErrors C fr durationInMs now rest (resumeYieldedRun C fr key 0 0 now db)

/-- Source `#resumeParallelRunWithTask`: parent accounting update (duration + one
execution, clearing `forceYieldImmediately`), optional parent task
`outputProperties` persist, then the child-error loop. -/
def resumeParallelRunWithTask (C : Consts) (fr : FoundRun) (taskId : String)
    (outputProperties : Option String) (childErrors : List ChildError)
    (durationInMs : Nat) (now : Nat) (db : DB) : DB :=
  let run1 := { db.run with
    executionDuration := db.run.executionDuration + durationInMs
    executionCount := db.run.executionCount + 1
    forceYieldImmediately := false }
  let db := { db with run := run1 }
  let db := match outputProperties with
    | some props =>
      { db with tasks := (updateTaskRow db.tasks taskId (fun t => { t with outputProperties := some props })) }
    | none => db
  processChildErrors C fr durationInMs now childErrors db

/-- Parsed `x-trigger-run-metadata` header. -/
structure RunMetadataHeader where
  successSubscription : Bool
  failedSubscription : Bool
  deriving DecidableEq, Repr

/-- Successfully parsed response headers of interest. -/
structure ParsedHeaders where
  triggerVersion : Option String
  runMetadata : Option RunMetadataHeader
  deriving DecidableEq, Repr

/-- The ten-variant tagged union of a schema-valid 2xx execute response body. -/
inductive RunJobResponse
  | success (output : Option String)
  | resumeWithTask (t : ResumeTaskData)
  | error (taskId : Option String) (err : Option String)
  | retryWithTask (r : RetryTaskData)
  | canceled
  | unresolvedAuth (issues : String)
  | invalidPayload (errors : String)
  | yieldExecution (key : String)
  | autoYieldExecution (m : AutoYieldMetadata)
  | autoYieldWithCompletedTask (d : AutoYieldCompletedTask)
  | resumeWithParallelTask (taskId : String) (outputProperties : Option String)
      (childErrors : List ChildError)
  deriving DecidableEq, Repr

/-- Result of parsing a 2xx body against the response schema. -/
inductive BodyParse
  | invalidJson
  | schemaInvalid (issuesMessage : String)
  | valid (r : RunJobResponse)
  deriving DecidableEq, Repr

/-- Outcome of the endpoint HTTP call (`client.executeJobRequest`):
no response at all, a non-2xx response (with the error-schema parse result
`errorBody` and the timeout classification), or a 2xx response with a body
parse result. -/
inductive HttpOutcome
  | noResponse
  | httpError (headers : Option ParsedHeaders) (status : Nat) (isTimeout : Bool)
      (errorBody : Option String) (durationInMs : Nat)
  | ok (headers : Option ParsedHeaders) (body : BodyParse) (durationInMs : Nat)
  deriving DecidableEq, Repr

/-- Result of `#executeJob`: a normal return, or the thrown structured error
of `#failRunExecutionWithRetry` that the queue worker interprets as "retry". -/
inductive ExecResult
  | done (db : DB)
  | retryThrown (output : String) (db : DB)
  deriving DecidableEq, Repr

/-- The persisted state carried by either `ExecResult` variant. -/
def ExecResult.db : ExecResult → DB
  | .done db => db
  | .retryThrown _ db => db

/-- Query `jobRunSubscription.upsert` on the unique key `(runId, recipient, event)`:
a no-op `update: {}` when the row exists, else a create with
`recipientMethod = "ENDPOINT"`, `status = "ACTIVE"`. -/
def upsertSubscription (fr : FoundRun) (ev : SubscriptionEvent) (db : DB) : DB :=
  if db.subscriptions.any (fun s => s.runId == fr.run.id && s.recipient == fr.endpoint.id && s.event == ev) then
    db
  else
    let row : JobRunSubscription := {
      runId := fr.run.id
      recipient := fr.endpoint.id
      recipientMethod := "ENDPOINT"
      event := ev
      status := "ACTIVE" }
    { db with subscriptions := db.subscriptions ++ [row] }

/-- The opportunistic endpoint-version update: when the `trigger-version`
header parsed and differs from the stored version, store it. -/
def applyVersionHeader (fr : FoundRun) (tv : Option String) (db : DB) : DB :=
  match tv with
  | some v =>
    if v != fr.endpoint.version then { db with endpoint := { db.endpoint with version := v } }
    else db
  | none => db

/-- Header side-effects of `#executeJob`: opportunistic endpoint-version
update, then the `x-trigger-run-metadata`-driven subscription upserts, which
are guarded by `!run.internal` and by the *loaded* subscription list
containing no subscription with the same event. -/
def applyHeaderEffects (fr : FoundRun) (headers : Option ParsedHeaders) (db : DB) : DB :=
  match headers with
  | none => db
  | some h =>
    let db := applyVersionHeader fr h.triggerVersion db
    match h.runMetadata with
    | none => db
    | some m =>
      if fr.run.internal then db
      else
        let db :=
          if m.successSubscription && !(fr.subscriptions.any (fun s => s.event == SubscriptionEvent.SUCCESS)) then
            upsertSubscription fr SubscriptionEvent.SUCCESS db
          else db
        if m.failedSubscription && !(fr.subscriptions.any (fun s => s.event == SubscriptionEvent.FAILURE)) then
          upsertSubscription fr SubscriptionEvent.FAILURE db
        else db

/-- The `switch (status)` over the ten response variants of `#executeJob`
(`CANCELED` runs through `#cancelExecution`, which does nothing). -/
def dispatchResponse (C : Consts) (fr : FoundRun) (r : RunJobResponse) (durationInMs : Nat)
    (now : Nat) (db : DB) : DB :=
  match r with
  | .success output => completeRunWithSuccess fr output durationInMs now db
  | .resumeWithTask t => resumeRunWithTask fr t durationInMs 1 db
  | .error tid err => failRunWithError fr tid err durationInMs now db
  | .retryWithTask rdata => retryRunWithTask fr rdata durationInMs 1 db
  | .canceled => db
  | .unresolvedAuth issues => failRunWithUnresolvedAuthError fr issues durationInMs now db
  | .invalidPayload errors => failRunWithInvalidPayloadError fr errors durationInMs now db
  | .yieldExecution key => resumeYieldedRun C fr key durationInMs 1 now db
  | .autoYieldExecution m => resumeAutoYieldedRun fr m durationInMs 1 db
  | .autoYieldWithCompletedTask d => resumeAutoYieldedRunWithCompletedTask fr d durationInMs 1 db
  | .resumeWithParallelTask tid props children =>
    resumeParallelRunWithTask C fr tid props children durationInMs now db

/-- Tests whether `needle` starts `hay` (character-wise). -/
def charsStartWith : List Char → List Char → Bool
  | [], _ => true
  | _ :: _, [] => false
  | a :: as, b :: bs => a == b && charsStartWith as bs

/-- Tests whether `needle` occurs somewhere in `hay` (JS `String.includes`). -/
def charsContain (hay needle : List Char) : Bool :=
  match hay with
  | [] => needle.isEmpty
  | _ :: rest => charsStartWith needle hay || charsContain rest needle

/-- JS `s.includes(sub)`. -/
def stringIncludes (s sub : String) : Bool :=
  charsContain s.data sub.data

/-- The delivered work item (`PerformRunExecutionV3Input` without id/reason). -/
structure ExecInput where
  isRetry : Bool
  resumeTaskId : Option String
  deriving DecidableEq, Repr

/-- The response-classification tail of `#executeJob` (source lines after the
endpoint call returns): the header side-effects, the non-2xx error ladder with
its timeout detection, the 2xx body parse, and the ten-variant dispatch. -/
def classifyResponse (C : Consts) (fr : FoundRun) (out : HttpOutcome) (now : Nat) (db : DB) :
    ExecResult :=
  match out with
  | .noResponse =>
    let url := fr.endpoint.url
    .retryThrown s!"Connection could not be established to the endpoint ({url})" db
  | .httpError headers status isTimeout errorBody durationInMs =>
    let db := applyHeaderEffects fr headers db
    (match errorBody with
     | some eb =>
       if 400 ≤ status ∧ status ≤ 499 then
         .done (failRunExecution fr .EXECUTE_JOB (some eb) .FAILURE 0 now db)
       else
         .retryThrown eb db
     | none =>
       if 400 ≤ status ∧ status ≤ 499 ∧ status ≠ 408 then
         .done (failRunExecution fr .EXECUTE_JOB
           (some s!"Endpoint responded with {status} status code") .FAILURE durationInMs now db)
       else if isTimeout then
         .done (resumeRunExecutionAfterTimeout C fr durationInMs now db)
       else
         .retryThrown s!"Endpoint responded with {status} status code" db)
  | .ok headers body durationInMs =>
    let db := applyHeaderEffects fr headers db
    (match body with
     | .invalidJson =>
       .done (failRunExecution fr .EXECUTE_JOB
         (some "Endpoint responded with invalid JSON") .FAILURE durationInMs now db)
     | .schemaInvalid msg =>
       .done (failRunExecution fr .EXECUTE_JOB (some msg) .FAILURE durationInMs now db)
     | .valid r => .done (dispatchResponse C fr r durationInMs now db))

/-- The body of `#executeJob` from the preflight `jobRun.update` (status
transition, `startedAt`, `executionCount` increment) through connection
resolution, the deprecated `resumeTaskId` handling, the endpoint HTTP call
with its surrounding telemetry events, and `classifyResponse`.
`connectionsOk` is the outcome of `resolveRunConnections`;
`tasksCreatedDuringChunk` are task rows the endpoint created through the API
while the chunk ran; `out` is the HTTP call outcome. -/
def executeJobMain (C : Consts) (connectionsOk : Bool) (fr : FoundRun) (input : ExecInput)
    (tasksCreatedDuringChunk : List Task) (out : HttpOutcome) (now : Nat) (db : DB) :
    ExecResult :=
  let run1 := { db.run with
    status := if fr.run.status == RunStatus.QUEUED then RunStatus.STARTED else fr.run.status
    startedAt := some (fr.run.startedAt.getD now)
    executionCount := db.run.executionCount + 1 }
  let db := { db with run := run1 }
  if !connectionsOk then
    let rid := fr.run.id
    .done (failRunExecution fr .EXECUTE_JOB
      (some s!"Could not resolve all connections for run {rid}. This should not happen")
      .FAILURE 0 now db)
  else
    let db : DB := match input.resumeTaskId with
      | none => db
      | some tid =>
        match db.tasks.find? (fun (t : Task) => t.id == tid) with
        | none => db
        | some found =>
          if found.noop then
            { db with tasks := (updateTaskRow db.tasks tid (fun t => { t with status := TaskStatus.COMPLETED, completedAt := some now })) }
          else
            { db with tasks := (updateTaskRow db.tasks tid (fun t => { t with status := TaskStatus.RUNNING })) }
    let db := { db with
      telemetry := db.telemetry + 2
      endpointCalls := db.endpointCalls + 1
      tasks := db.tasks ++ tasksCreatedDuringChunk }
    classifyResponse C fr out now db

/-- Source `#executeJob`.  The preflight guards: a `CANCELED` run returns with no
writes (`#cancelExecution` is empty); the `BLOCKED_ORGS` section runs inside a
`try { … } catch (e) {}` — `blockedOrgs` is the `BLOCKED_ORGS` environment
variable (JS substring `includes` semantics) and `blockedSectionThrows` models
an exception raised inside that block (swallowed, and implying the CANCELED
store write did not happen).  Everything after the guards is
`executeJobMain`. -/
def executeJob (C : Consts) (blockedOrgs : Option String) (blockedSectionThrows : Bool)
    (connectionsOk : Bool) (fr : FoundRun) (input : ExecInput)
    (tasksCreatedDuringChunk : List Task) (out : HttpOutcome) (now : Nat) (db : DB) :
    ExecResult :=
  if fr.run.status == RunStatus.CANCELED then
    .done db
  else
    let blocked := (match blockedOrgs with
      | some s => stringIncludes s fr.run.organizationId
      | none => false)
    if blocked && !blockedSectionThrows then
      .done { db with run := { db.run with status := RunStatus.CANCELED, completedAt := some now } }
    else
      executeJobMain C connectionsOk fr input tasksCreatedDuringChunk out now db

/-- Outcome of the preprocess HTTP call (`client.preprocessRunRequest`). -/
inductive PreprocessOutcome
  | noResponse
  | notOk (status : Nat)
  | invalidJson
  | schemaInvalid (issuesMessage : String)
  | ok (abort : Bool) (properties : Option String)
  deriving DecidableEq, Repr

/-- Source `#executePreprocessing`: one endpoint call; every non-ok outcome flows to
`#failRunExecution` with reason PREPROCESS; `abort = true` aborts; otherwise
the run is started and an EXECUTE_JOB is enqueued. -/
def executePreprocessing (fr : FoundRun) (out : PreprocessOutcome) (now : Nat) (db : DB) : DB :=
  let db := { db with endpointCalls := db.endpointCalls + 1 }
  match out with
  | .noResponse =>
    failRunExecution fr .PREPROCESS (some "Could not connect to the endpoint") .FAILURE 0 now db
  | .notOk status =>
    failRunExecution fr .PREPROCESS
      (some s!"Endpoint responded with {status} status code") .FAILURE 0 now db
  | .invalidJson =>
    failRunExecution fr .PREPROCESS
      (some "Endpoint responded with invalid JSON") .FAILURE 0 now db
  | .schemaInvalid msg =>
    failRunExecution fr .PREPROCESS (some msg) .FAILURE 0 now db
  | .ok true _ =>
    failRunExecution fr .PREPROCESS (some "Endpoint aborted the run") .ABORTED 0 now db
  | .ok false props =>
    let run1 := { db.run with
      status := RunStatus.STARTED
      startedAt := some now
      properties := (match props with | some p => some p | none => db.run.properties)
      forceYieldImmediately := false }
    let db := { db with run := run1 }
    { db with queue := db.queue ++ [.executeRun fr.run.id (fr.environmentType == .DEVELOPMENT)] }

/-- A child error is *terminal* when its branch of the `childErrors` switch
`return`s through `#failRunExecution`, ending the loop (`ERROR`,
`INVALID_PAYLOAD`, `UNRESOLVED_AUTH_ERROR`); the other six statuses fall
through to the next iteration. -/
def ChildError.isTerminal : ChildError → Bool
  | .error _ => true
  | .invalidPayload _ => true
  | .unresolvedAuth _ => true
  | _ => false

/-- The attempt numbers recorded for one task. -/
def attemptNumbersFor (attempts : List TaskAttempt) (tid : String) : List Nat :=
  (attempts.filter (fun a => a.taskId == tid)).map (fun a => a.number)

/-! ### Concrete fixtures

The application constants are not part of the embedded sources, so witnesses
instantiate `Consts` with representative values satisfying the hypotheses of
the theorems they discharge. -/

/-- Representative constants. -/
def C0 : Consts :=
  { MAX_RUN_YIELDED_EXECUTIONS := 100
    MAX_RUN_CHUNK_EXECUTION_LIMIT := 60000
    RUN_CHUNK_EXECUTION_BUFFER := 500 }

/-- A fresh queued run `r1` (scenario S1/S2 starting point). -/
def run0 : JobRun :=
  { id := "r1", status := .QUEUED, startedAt := none, completedAt := none
    executionCount := 0, executionDuration := 0, yieldedExecutions := []
    output := none, properties := none, forceYieldImmediately := false
    organizationId := "org1", internal := false }

/-- The run's endpoint. -/
def endpoint0 : Endpoint :=
  { id := "ep1", url := "https://example.test", version := "2.0.0"
    runChunkExecutionLimit := 60000 }

/-- The run's organisation. -/
def org0 : Organization := { id := "org1", maximumExecutionTimePerRunInMs := 60000 }

/-- Initial store state for the scenarios. -/
def db0 : DB :=
  { run := run0, tasks := [], attempts := [], endpoint := endpoint0
    organization := org0, environmentType := .PRODUCTION, subscriptions := []
    autoYields := [], queue := [], endpointCalls := 0, telemetry := 0
    completeTaskCalls := [] }

/-- The delivered EXECUTE_JOB work item (no deprecated fields set). -/
def input0 : ExecInput := { isRetry := false, resumeTaskId := none }

/-- Scenario S2, first chunk: the endpoint yields with key `k1` after 200 ms. -/
def s2Step1 : ExecResult :=
  executeJob C0 none false true (findRun db0) input0 []
    (.ok none (.valid (.yieldExecution "k1")) 200) 1000 db0

/-- State after the first S2 chunk. -/
def s2Db1 : DB := s2Step1.db

/-- Scenario S2, second chunk: the endpoint succeeds after 150 ms. -/
def s2Step2 : ExecResult :=
  executeJob C0 none false true (findRun s2Db1) input0 []
    (.ok none (.valid (.success (some "done"))) 150) 2000 s2Db1

/-- Final state of scenario S2. -/
def s2Final : DB := s2Step2.db

/-- A terminal run: completed with SUCCESS at time 500. -/
def dbTerm : DB := { db0 with run := { run0 with status := .SUCCESS, completedAt := some 500 } }

/-- A started, mid-flight run. -/
def dbStarted : DB := { db0 with run := { run0 with status := .STARTED, startedAt := some 100 } }

/-- A started run whose `forceYieldImmediately` flag is set. -/
def dbFY : DB :=
  { db0 with run :=
      { run0 with status := .STARTED, startedAt := some 100, forceYieldImmediately := true } }

/-- A `RESUME_WITH_TASK` payload with no operation and no callback. -/
def taskA : ResumeTaskData :=
  { id := "t1", outputProperties := none, hasOperation := false, hasCallbackUrl := false
    delayUntil := none }

/-- Constants with a small yield ceiling, for the yield-ceiling witness. -/
def C3c : Consts :=
  { MAX_RUN_YIELDED_EXECUTIONS := 2
    MAX_RUN_CHUNK_EXECUTION_LIMIT := 60000
    RUN_CHUNK_EXECUTION_BUFFER := 500 }

/-- A started run already holding `MAX_RUN_YIELDED_EXECUTIONS = 2` yield keys. -/
def dbY : DB :=
  { db0 with run :=
      { run0 with status := .STARTED, startedAt := some 100, yieldedExecutions := ["a", "b"] } }

/-- A task row created while a timed-out chunk ran. -/
def task1 : Task :=
  { id := "t1", idempotencyKey := "ik1", status := .RUNNING, noop := false, output := none
    outputProperties := none, completedAt := none, createdAt := 5, name := "task-1"
    displayKey := none }

/-- Store state after the timed-out chunk created `task1` (the loaded snapshot
`findRun dbStarted` still has task count 0). -/
def db4 : DB := { dbStarted with tasks := [task1] }

/-- Attempt #1 of task `t1`, already errored. -/
def attempt1 : TaskAttempt :=
  { id := 0, taskId := "t1", number := 1, status := .ERRORED, runAt := none, error := some "x" }

/-- Attempt #2 of task `t1`, pending (scenario S5's "previous attempt number = 2"). -/
def attempt2 : TaskAttempt :=
  { id := 1, taskId := "t1", number := 2, status := .PENDING, runAt := none, error := none }

/-- Store state for the S5 retry-with-task witness. -/
def db5 : DB := { dbStarted with tasks := [task1], attempts := [attempt1, attempt2] }

/-- The S5 `RETRY_WITH_TASK` payload: task `t1`, retry at T+5s. -/
def retry5 : RetryTaskData := { taskId := "t1", error := "boom", retryAt := 5000 }

/-- A subscription held by a recipient other than the endpoint, for event
SUCCESS. -/
def subOther : JobRunSubscription :=
  { runId := "r1", recipient := "other-recipient", recipientMethod := "ENDPOINT"
    event := .SUCCESS, status := "ACTIVE" }

/-- Store state whose run already has a SUCCESS subscription by another
recipient. -/
def db10 : DB := { db0 with subscriptions := [subOther] }

/-- Headers carrying run metadata asking for a success subscription. -/
def headers10 : ParsedHeaders :=
  { triggerVersion := none
    runMetadata := some { successSubscription := true, failedSubscription := false } }

/-- A cancelled run. -/
def dbCanceled : DB := { db0 with run := { run0 with status := .CANCELED } }

/-! ### Characterisation lemmas for the handlers -/

@[simp] theorem ExecResult.db_done (db : DB) : (ExecResult.done db).db = db := rfl

@[simp] theorem ExecResult.db_retryThrown (o : String) (db : DB) :
    (ExecResult.retryThrown o db).db = db := rfl

theorem failRunExecution_run (fr : FoundRun) (out : Option String) (st : RunStatus)
    (d now : Nat) (db : DB) :
    (failRunExecution fr .EXECUTE_JOB out st d now db).run =
      { db.run with
        completedAt := some now
        status := st
        output := (match out with | some o => some o | none => db.run.output)
        executionDuration := db.run.executionDuration + d
        forceYieldImmediately := false } := rfl

theorem failRunExecution_queue (fr : FoundRun) (out : Option String) (st : RunStatus)
    (d now : Nat) (db : DB) :
    (failRunExecution fr .EXECUTE_JOB out st d now db).queue =
      db.queue ++ [.deliverRunSubscriptions fr.run.id] := rfl

theorem completeRunWithSuccess_run (fr : FoundRun) (out : Option String) (d now : Nat)
    (db : DB) :
    (completeRunWithSuccess fr out d now db).run =
      { db.run with
        completedAt := some now
        status := .SUCCESS
        output := (match out with | some o => some o | none => db.run.output)
        executionDuration := db.run.executionDuration + d } := rfl

theorem resumeRunWithTask_run (fr : FoundRun) (t : ResumeTaskData) (d ec : Nat) (db : DB) :
    (resumeRunWithTask fr t d ec db).run =
      { db.run with
        executionDuration := db.run.executionDuration + d
        executionCount := db.run.executionCount + ec } := by
  unfold resumeRunWithTask
  cases t.outputProperties <;> dsimp only <;> split <;> rfl

theorem resumeAutoYieldedRun_run (fr : FoundRun) (m : AutoYieldMetadata) (d ec : Nat)
    (db : DB) :
    (resumeAutoYieldedRun fr m d ec db).run =
      { db.run with
        executionDuration := db.run.executionDuration + d
        executionCount := db.run.executionCount + ec
        forceYieldImmediately := false } := rfl

theorem resumeAutoYieldedRunWithCompletedTask_run (fr : FoundRun)
    (dd : AutoYieldCompletedTask) (d ec : Nat) (db : DB) :
    (resumeAutoYieldedRunWithCompletedTask fr dd d ec db).run =
      { db.run with
        executionDuration := db.run.executionDuration + d
        executionCount := db.run.executionCount + ec
        forceYieldImmediately := false } := rfl

theorem retryRunWithTask_run (fr : FoundRun) (data : RetryTaskData) (d ec : Nat) (db : DB) :
    (retryRunWithTask fr data d ec db).run =
      { db.run with
        executionDuration := db.run.executionDuration + d
        executionCount := db.run.executionCount + ec } := by
  unfold retryRunWithTask
  cases latestPendingAttempt db.attempts data.taskId <;> rfl

theorem failRunWithError_run (fr : FoundRun) (taskId : Option String)
    (err : Option String) (d now : Nat) (db : DB) :
    (failRunWithError fr taskId err d now db).run =
      { db.run with
        completedAt := some now
        status := .FAILURE
        output := (match err with | some o => some o | none => db.run.output)
        executionDuration := db.run.executionDuration + d
        forceYieldImmediately := false } := by
  cases taskId <;> rfl

theorem upsertSubscription_run (fr : FoundRun) (ev : SubscriptionEvent) (db : DB) :
    (upsertSubscription fr ev db).run = db.run := by
  unfold upsertSubscription
  split <;> rfl

theorem applyVersionHeader_run (fr : FoundRun) (tv : Option String) (db : DB) :
    (applyVersionHeader fr tv db).run = db.run := by
  cases tv with
  | none => rfl
  | some v =>
    simp only [applyVersionHeader]
    split <;> rfl

theorem applyVersionHeader_subscriptions (fr : FoundRun) (tv : Option String) (db : DB) :
    (applyVersionHeader fr tv db).subscriptions = db.subscriptions := by
  cases tv with
  | none => rfl
  | some v =>
    simp only [applyVersionHeader]
    split <;> rfl

theorem upsertSubscription_subscriptions (fr : FoundRun) (ev : SubscriptionEvent)
    (db db' : DB) (hsub : db.subscriptions = db'.subscriptions) :
    (upsertSubscription fr ev db).subscriptions =
      (upsertSubscription fr ev db').subscriptions := by
  unfold upsertSubscription
  split <;> split <;> simp_all

theorem applyHeaderEffects_run (fr : FoundRun) (h : Option ParsedHeaders) (db : DB) :
    (applyHeaderEffects fr h db).run = db.run := by
  cases h with
  | none => rfl
  | some ph =>
    simp only [applyHeaderEffects]
    cases hrm : ph.runMetadata with
    | none => exact applyVersionHeader_run fr ph.triggerVersion db
    | some m =>
      repeat' split
      all_goals simp [upsertSubscription_run, applyVersionHeader_run]

theorem resumeYieldedRun_fy (C : Consts) (fr : FoundRun) (key : String) (d ec now : Nat)
    (db : DB) :
    (resumeYieldedRun C fr key d ec now db).run.forceYieldImmediately = false := by
  unfold resumeYieldedRun
  split
  · rw [failRunExecution_run]
  · rfl

theorem resumeYieldedRun_duration (C : Consts) (fr : FoundRun) (key : String)
    (d ec now : Nat) (db : DB) :
    (resumeYieldedRun C fr key d ec now db).run.executionDuration =
      db.run.executionDuration + d := by
  unfold resumeYieldedRun
  split
  · rw [failRunExecution_run]
  · rfl

theorem resumeYieldedRun_count (C : Consts) (fr : FoundRun) (key : String)
    (d ec now : Nat) (db : DB) :
    (resumeYieldedRun C fr key d ec now db).run.executionCount = db.run.executionCount ∨
    (resumeYieldedRun C fr key d ec now db).run.executionCount =
      db.run.executionCount + ec := by
  unfold resumeYieldedRun
  split
  · left; rw [failRunExecution_run]
  · right; rfl

theorem resumeRunExecutionAfterTimeout_fy (C : Consts) (fr : FoundRun) (d now : Nat)
    (db : DB) :
    (resumeRunExecutionAfterTimeout C fr d now db).run.forceYieldImmediately = false := by
  simp only [resumeRunExecutionAfterTimeout]
  repeat' split
  all_goals first | rw [failRunExecution_run] | rfl

theorem resumeRunExecutionAfterTimeout_count (C : Consts) (fr : FoundRun) (d now : Nat)
    (db : DB) :
    (resumeRunExecutionAfterTimeout C fr d now db).run.executionCount =
      db.run.executionCount := by
  simp only [resumeRunExecutionAfterTimeout]
  repeat' split
  all_goals first | rw [failRunExecution_run] | rfl

theorem processChildErrors_count (C : Consts) (fr : FoundRun) (d now : Nat) :
    ∀ (ces : List ChildError) (db : DB),
      (processChildErrors C fr d now ces db).run.executionCount = db.run.executionCount := by
  intro ces
  induction ces with
  | nil => intro db; rfl
  | cons ce rest ih =>
    intro db
    cases ce with
    | autoYieldExecution m =>
      simp only [processChildErrors]
      rw [ih]
      simp [resumeAutoYieldedRun_run]
    | autoYieldWithCompletedTask dd =>
      simp only [processChildErrors]
      rw [ih]
      simp [resumeAutoYieldedRunWithCompletedTask_run]
    | canceled => exact ih db
    | error e =>
      simp only [processChildErrors]
      rw [failRunExecution_run]
    | invalidPayload e =>
      simp only [processChildErrors]
      rw [failRunExecution_run]
    | resumeWithTask t =>
      simp only [processChildErrors]
      rw [ih]
      simp [resumeRunWithTask_run]
    | retryWithTask r =>
      simp only [processChildErrors]
      rw [ih]
      simp [retryRunWithTask_run]
    | unresolvedAuth i =>
      simp only [processChildErrors]
      rw [failRunExecution_run]
    | yieldExecution key =>
      simp only [processChildErrors]
      rw [ih]
      rcases resumeYieldedRun_count C fr key 0 0 now db with h | h <;> rw [h] <;> omega

theorem processChildErrors_fy (C : Consts) (fr : FoundRun) (d now : Nat) :
    ∀ (ces : List ChildError) (db : DB), db.run.forceYieldImmediately = false →
      (processChildErrors C fr d now ces db).run.forceYieldImmediately = false := by
  intro ces
  induction ces with
  | nil => intro db h; exact h
  | cons ce rest ih =>
    intro db h
    cases ce with
    | autoYieldExecution m =>
      simp only [processChildErrors]
      exact ih _ (by rw [resumeAutoYieldedRun_run])
    | autoYieldWithCompletedTask dd =>
      simp only [processChildErrors]
      exact ih _ (by rw [resumeAutoYieldedRunWithCompletedTask_run])
    | canceled => exact ih db h
    | error e =>
      simp only [processChildErrors]
      rw [failRunExecution_run]
    | invalidPayload e =>
      simp only [processChildErrors]
      rw [failRunExecution_run]
    | resumeWithTask t =>
      simp only [processChildErrors]
      exact ih _ (by rw [resumeRunWithTask_run]; exact h)
    | retryWithTask r =>
      simp only [processChildErrors]
      exact ih _ (by rw [retryRunWithTask_run]; exact h)
    | unresolvedAuth i =>
      simp only [processChildErrors]
      rw [failRunExecution_run]
    | yieldExecution key =>
      simp only [processChildErrors]
      exact ih _ (resumeYieldedRun_fy C fr key 0 0 now db)

theorem processChildErrors_duration_nonterminal (C : Consts) (fr : FoundRun) (d now : Nat) :
    ∀ (ces : List ChildError) (db : DB), (∀ ce ∈ ces, ce.isTerminal = false) →
      (processChildErrors C fr d now ces db).run.executionDuration =
        db.run.executionDuration := by
  intro ces
  induction ces with
  | nil => intro db _; rfl
  | cons ce rest ih =>
    intro db h
    have hh : ce.isTerminal = false := h ce (by simp)
    have ht : ∀ x ∈ rest, x.isTerminal = false := fun x hm => h x (by simp [hm])
    cases ce with
    | autoYieldExecution m =>
      simp only [processChildErrors]
      rw [ih _ ht]
      simp [resumeAutoYieldedRun_run]
    | autoYieldWithCompletedTask dd =>
      simp only [processChildErrors]
      rw [ih _ ht]
      simp [resumeAutoYieldedRunWithCompletedTask_run]
    | canceled => exact ih db ht
    | error e => simp [ChildError.isTerminal] at hh
    | invalidPayload e => simp [ChildError.isTerminal] at hh
    | resumeWithTask t =>
      simp only [processChildErrors]
      rw [ih _ ht]
      simp [resumeRunWithTask_run]
    | retryWithTask r =>
      simp only [processChildErrors]
      rw [ih _ ht]
      simp [retryRunWithTask_run]
    | unresolvedAuth i => simp [ChildError.isTerminal] at hh
    | yieldExecution key =>
      simp only [processChildErrors]
      rw [ih _ ht, resumeYieldedRun_duration]
      omega

theorem processChildErrors_shortCircuit (C : Consts) (fr : FoundRun) (d now : Nat) :
    ∀ (pre : List ChildError) (c : ChildError) (post : List ChildError) (db : DB),
      (∀ ce ∈ pre, ce.isTerminal = false) → c.isTerminal = true →
      processChildErrors C fr d now (pre ++ c :: post) db =
        processChildErrors C fr d now (pre ++ [c]) db := by
  intro pre
  induction pre with
  | nil =>
    intro c post db _ hc
    cases c <;> first | rfl | simp [ChildError.isTerminal] at hc
  | cons h t ih =>
    intro c post db hpre hc
    have hh : h.isTerminal = false := hpre h (by simp)
    have ht : ∀ ce ∈ t, ce.isTerminal = false := fun ce hm => hpre ce (by simp [hm])
    cases h <;> simp only [List.cons_append, processChildErrors] <;>
      first
        | exact ih c post _ ht hc
        | simp [ChildError.isTerminal] at hh

theorem processChildErrors_terminal (C : Consts) (fr : FoundRun) (d now : Nat) :
    ∀ (pre : List ChildError) (c : ChildError) (db : DB),
      (∀ ce ∈ pre, ce.isTerminal = false) → c.isTerminal = true →
      (processChildErrors C fr d now (pre ++ [c]) db).run.executionDuration =
        db.run.executionDuration + d ∧
      (processChildErrors C fr d now (pre ++ [c]) db).run.completedAt = some now := by
  intro pre
  induction pre with
  | nil =>
    intro c db _ hc
    cases c with
    | error e => refine ⟨?_, ?_⟩ <;> simp [processChildErrors, failRunExecution_run]
    | invalidPayload e => refine ⟨?_, ?_⟩ <;> simp [processChildErrors, failRunExecution_run]
    | unresolvedAuth i => refine ⟨?_, ?_⟩ <;> simp [processChildErrors, failRunExecution_run]
    | autoYieldExecution m => simp [ChildError.isTerminal] at hc
    | autoYieldWithCompletedTask dd => simp [ChildError.isTerminal] at hc
    | canceled => simp [ChildError.isTerminal] at hc
    | resumeWithTask t => simp [ChildError.isTerminal] at hc
    | retryWithTask r => simp [ChildError.isTerminal] at hc
    | yieldExecution k => simp [ChildError.isTerminal] at hc
  | cons h t ih =>
    intro c db hpre hc
    have hh : h.isTerminal = false := hpre h (by simp)
    have ht : ∀ ce ∈ t, ce.isTerminal = false := fun ce hm => hpre ce (by simp [hm])
    cases h with
    | autoYieldExecution m =>
      have hd : (resumeAutoYieldedRun fr m 0 0 db).run.executionDuration =
          db.run.executionDuration := by simp [resumeAutoYieldedRun_run]
      obtain ⟨h1, h2⟩ := ih c (resumeAutoYieldedRun fr m 0 0 db) ht hc
      rw [hd] at h1
      exact ⟨h1, h2⟩
    | autoYieldWithCompletedTask dd =>
      have hd : (resumeAutoYieldedRunWithCompletedTask fr dd 0 0 db).run.executionDuration =
          db.run.executionDuration := by simp [resumeAutoYieldedRunWithCompletedTask_run]
      obtain ⟨h1, h2⟩ := ih c (resumeAutoYieldedRunWithCompletedTask fr dd 0 0 db) ht hc
      rw [hd] at h1
      exact ⟨h1, h2⟩
    | canceled => exact ih c db ht hc
    | error e => simp [ChildError.isTerminal] at hh
    | invalidPayload e => simp [ChildError.isTerminal] at hh
    | resumeWithTask tt =>
      have hd : (resumeRunWithTask fr tt 0 0 db).run.executionDuration =
          db.run.executionDuration := by simp [resumeRunWithTask_run]
      obtain ⟨h1, h2⟩ := ih c (resumeRunWithTask fr tt 0 0 db) ht hc
      rw [hd] at h1
      exact ⟨h1, h2⟩
    | retryWithTask r =>
      have hd : (retryRunWithTask fr r 0 0 db).run.executionDuration =
          db.run.executionDuration := by simp [retryRunWithTask_run]
      obtain ⟨h1, h2⟩ := ih c (retryRunWithTask fr r 0 0 db) ht hc
      rw [hd] at h1
      exact ⟨h1, h2⟩
    | unresolvedAuth i => simp [ChildError.isTerminal] at hh
    | yieldExecution key =>
      have hd : (resumeYieldedRun C fr key 0 0 now db).run.executionDuration =
          db.run.executionDuration := by rw [resumeYieldedRun_duration]; omega
      obtain ⟨h1, h2⟩ := ih c (resumeYieldedRun C fr key 0 0 now db) ht hc
      rw [hd] at h1
      exact ⟨h1, h2⟩

theorem resumeParallelRunWithTask_spec (C : Consts) (fr : FoundRun) (tid : String)
    (props : Option String) (ces : List ChildError) (d now : Nat) (db : DB) :
    ∃ dbMid : DB,
      resumeParallelRunWithTask C fr tid props ces d now db =
        processChildErrors C fr d now ces dbMid ∧
      dbMid.run = { db.run with
        executionDuration := db.run.executionDuration + d
        executionCount := db.run.executionCount + 1
        forceYieldImmediately := false } := by
  cases props <;> exact ⟨_, rfl, rfl⟩

theorem dispatchResponse_count_ge (C : Consts) (fr : FoundRun) (r : RunJobResponse)
    (d now : Nat) (db : DB) :
    db.run.executionCount ≤ (dispatchResponse C fr r d now db).run.executionCount := by
  cases r with
  | success out => simp [dispatchResponse, completeRunWithSuccess_run]
  | resumeWithTask t => simp [dispatchResponse, resumeRunWithTask_run]
  | error tid err => simp [dispatchResponse, failRunWithError_run]
  | retryWithTask rdata => simp [dispatchResponse, retryRunWithTask_run]
  | canceled => simp [dispatchResponse]
  | unresolvedAuth i =>
    simp [dispatchResponse, failRunWithUnresolvedAuthError, failRunExecution_run]
  | invalidPayload e =>
    simp [dispatchResponse, failRunWithInvalidPayloadError, failRunExecution_run]
  | yieldExecution key =>
    simp only [dispatchResponse]
    rcases resumeYieldedRun_count C fr key d 1 now db with h | h <;> rw [h] <;> omega
  | autoYieldExecution m => simp [dispatchResponse, resumeAutoYieldedRun_run]
  | autoYieldWithCompletedTask dd =>
    simp [dispatchResponse, resumeAutoYieldedRunWithCompletedTask_run]
  | resumeWithParallelTask tid props children =>
    simp only [dispatchResponse]
    obtain ⟨dbMid, heq, hrun⟩ := resumeParallelRunWithTask_spec C fr tid props children d now db
    rw [heq, processChildErrors_count, hrun]
    show db.run.executionCount ≤ db.run.executionCount + 1
    omega

theorem classifyResponse_count_ge (C : Consts) (fr : FoundRun) (out : HttpOutcome)
    (now : Nat) (db : DB) :
    db.run.executionCount ≤ (classifyResponse C fr out now db).db.run.executionCount := by
  cases out with
  | noResponse => simp [classifyResponse]
  | httpError headers status isTimeout errorBody durationInMs =>
    simp only [classifyResponse]
    cases errorBody with
    | some eb =>
      dsimp only
      split
      · simp [failRunExecution_run, applyHeaderEffects_run]
      · simp [applyHeaderEffects_run]
    | none =>
      dsimp only
      split
      · simp [failRunExecution_run, applyHeaderEffects_run]
      · split
        · simp [resumeRunExecutionAfterTimeout_count, applyHeaderEffects_run]
        · simp [applyHeaderEffects_run]
  | ok headers body durationInMs =>
    simp only [classifyResponse]
    cases body with
    | invalidJson => simp [failRunExecution_run, applyHeaderEffects_run]
    | schemaInvalid msg => simp [failRunExecution_run, applyHeaderEffects_run]
    | valid r =>
      dsimp only
      have h := dispatchResponse_count_ge C fr r durationInMs now (applyHeaderEffects fr headers db)
      rw [applyHeaderEffects_run] at h
      simpa using h

theorem executeJobMain_count (C : Consts) (co : Bool) (fr : FoundRun) (input : ExecInput)
    (tc : List Task) (out : HttpOutcome) (now : Nat) (db : DB) :
    db.run.executionCount + 1 ≤
      (executeJobMain C co fr input tc out now db).db.run.executionCount := by
  simp only [executeJobMain]
  split
  · simp [failRunExecution_run]
  · rcases input.resumeTaskId with _ | tid
    · dsimp only
      have h := classifyResponse_count_ge C fr out now
      refine le_trans ?_ (h _)
      simp
    · dsimp only
      have h := classifyResponse_count_ge C fr out now
      split
      · refine le_trans ?_ (h _); simp
      · split
        · refine le_trans ?_ (h _); simp
        · refine le_trans ?_ (h _); simp

/-! ### Claim theorems -/

/-- C1 counterexample: in scenario S2 (a QUEUED run whose first chunk returns
YIELD_EXECUTION with key `k1` after 200 ms and whose second chunk returns
SUCCESS after 150 ms) the final `executionCount` is 3, not 2 as the claim
states: the preflight update of each chunk increments it once, and the yield
handler increments it a second time for the yield chunk. -/
theorem C1_counterexample :
    s2Final.run.yieldedExecutions = ["k1"] ∧
    s2Final.run.status = RunStatus.SUCCESS ∧
    s2Final.run.executionDuration = 350 ∧
    s2Final.run.executionCount = 3 ∧
    s2Final.run.executionCount ≠ 2 := by
  refine ⟨?_, ?_, ?_, ?_, ?_⟩ <;> decide

/-- C1 (amended): `executionCount` never decreases across any EXECUTE_JOB
delivery; each delivered chunk adds one at the preflight update, and the
resume-type outcome handlers (yield, auto-yield, resume-with-task,
retry-with-task, parallel) add a further one (or the explicit caller-supplied
value), so a YIELD_EXECUTION chunk followed by a SUCCESS chunk leaves a run
started at `executionCount = 0` with a final `executionCount` of 3. -/
theorem C1_amended :
    (∀ (C : Consts) (bo : Option String) (bt co : Bool) (fr : FoundRun) (input : ExecInput)
      (tc : List Task) (out : HttpOutcome) (now : Nat) (db : DB),
      db.run.executionCount ≤
        (executeJob C bo bt co fr input tc out now db).db.run.executionCount) ∧
    s2Final.run.executionCount = 3 := by
  constructor
  · intro C bo bt co fr input tc out now db
    simp only [executeJob]
    split
    · simp
    · split
      · simp
      · exact le_trans (Nat.le_succ _) (executeJobMain_count C co fr input tc out now db)
  · decide

/-- C2 counterexample: a run whose `completedAt` is already set (terminal with
status SUCCESS) is not protected from a further EXECUTE_JOB delivery — the
preflight update still increments `executionCount` (and proceeds to call the
endpoint), so the delivery is not a no-op on persisted state.  Only
`status = CANCELED` short-circuits. -/
theorem C2_counterexample :
    dbTerm.run.completedAt = some 500 ∧
    dbTerm.run.executionCount = 0 ∧
    (executeJob C0 none false true (findRun dbTerm) input0 []
        (.ok none (.valid .canceled) 100) 10 dbTerm).db.run.executionCount = 1 := by
  refine ⟨?_, ?_, ?_⟩ <;> decide

/-- C2 (amended): an EXECUTE_JOB delivered to a run whose status is CANCELED
is a no-op on persisted state (the result is exactly the unchanged store);
for every other run — `completedAt` set or not — the preflight update
increments `executionCount`, so delivery to a completed non-CANCELED run
still writes persisted state. -/
theorem C2_amended :
    (∀ (C : Consts) (bo : Option String) (bt co : Bool) (fr : FoundRun) (input : ExecInput)
      (tc : List Task) (out : HttpOutcome) (now : Nat) (db : DB),
      fr.run.status = RunStatus.CANCELED →
        executeJob C bo bt co fr input tc out now db = .done db) ∧
    (∀ (C : Consts) (bt co : Bool) (fr : FoundRun) (input : ExecInput)
      (tc : List Task) (out : HttpOutcome) (now : Nat) (db : DB),
      fr.run.status ≠ RunStatus.CANCELED →
        db.run.executionCount + 1 ≤
          (executeJob C none bt co fr input tc out now db).db.run.executionCount) := by
  constructor
  · intro C bo bt co fr input tc out now db h
    simp [executeJob, h]
  · intro C bt co fr input tc out now db h
    have hb : (fr.run.status == RunStatus.CANCELED) = false := by
      simp [h]
    simp only [executeJob, hb]
    simp only [Bool.false_eq_true, if_false, Bool.false_and, Bool.and_self]
    exact executeJobMain_count C co fr input tc out now db

/-- C2 witness: the CANCELED no-op branch and the increment branch of
`C2_amended`, each at a concrete store. -/
theorem C2_witness :
    executeJob C0 (some "blk") false true (findRun dbCanceled) input0 [] .noResponse 10
        dbCanceled = .done dbCanceled ∧
    db0.run.executionCount + 1 ≤
      (executeJob C0 none false true (findRun db0) input0 []
        (.ok none (.valid .canceled) 100) 10 db0).db.run.executionCount :=
  ⟨C2_amended.1 C0 (some "blk") false true (findRun dbCanceled) input0 [] .noResponse 10
      dbCanceled (by decide),
   C2_amended.2 C0 false true (findRun db0) input0 []
      (.ok none (.valid .canceled) 100) 10 db0 (by decide)⟩

/-- C3: the YIELD_EXECUTION handler fails the run with FAILURE and the
message naming `MAX_RUN_YIELDED_EXECUTIONS` when one more yield would exceed
the ceiling; otherwise, in one transaction, it appends the key, adds the
chunk duration, bumps `executionCount`, clears `forceYieldImmediately` and
enqueues a new EXECUTE_JOB; consequently the stored list never grows past the
ceiling. -/
theorem C3_yield_ceiling (C : Consts) (fr : FoundRun) (key : String) (d ec now : Nat)
    (db : DB) :
    (fr.run.yieldedExecutions.length + 1 > C.MAX_RUN_YIELDED_EXECUTIONS →
      resumeYieldedRun C fr key d ec now db =
        failRunExecution fr .EXECUTE_JOB
          (some (yieldLimitMessage C.MAX_RUN_YIELDED_EXECUTIONS)) .FAILURE d now db ∧
      (resumeYieldedRun C fr key d ec now db).run.status = RunStatus.FAILURE ∧
      (resumeYieldedRun C fr key d ec now db).run.output =
        some (yieldLimitMessage C.MAX_RUN_YIELDED_EXECUTIONS) ∧
      (resumeYieldedRun C fr key d ec now db).run.yieldedExecutions =
        db.run.yieldedExecutions) ∧
    (fr.run.yieldedExecutions.length + 1 ≤ C.MAX_RUN_YIELDED_EXECUTIONS →
      (resumeYieldedRun C fr key d ec now db).run.yieldedExecutions =
        db.run.yieldedExecutions ++ [key] ∧
      (resumeYieldedRun C fr key d ec now db).run.executionDuration =
        db.run.executionDuration + d ∧
      (resumeYieldedRun C fr key d ec now db).run.executionCount =
        db.run.executionCount + ec ∧
      (resumeYieldedRun C fr key d ec now db).run.forceYieldImmediately = false ∧
      (resumeYieldedRun C fr key d ec now db).queue =
        db.queue ++ [.executeRun fr.run.id (fr.environmentType == .DEVELOPMENT)]) ∧
    (fr.run.yieldedExecutions = db.run.yieldedExecutions →
      db.run.yieldedExecutions.length ≤ C.MAX_RUN_YIELDED_EXECUTIONS →
      (resumeYieldedRun C fr key d ec now db).run.yieldedExecutions.length ≤
        C.MAX_RUN_YIELDED_EXECUTIONS) := by
  refine ⟨?_, ?_, ?_⟩
  · intro h
    unfold resumeYieldedRun
    rw [if_pos h]
    refine ⟨rfl, ?_, ?_, ?_⟩ <;> simp [failRunExecution_run]
  · intro h
    have h' : ¬ (fr.run.yieldedExecutions.length + 1 > C.MAX_RUN_YIELDED_EXECUTIONS) := by
      omega
    unfold resumeYieldedRun
    rw [if_neg h']
    exact ⟨rfl, rfl, rfl, rfl, rfl⟩
  · intro heq hlen
    have hl := congrArg List.length heq
    by_cases h : fr.run.yieldedExecutions.length + 1 > C.MAX_RUN_YIELDED_EXECUTIONS
    · unfold resumeYieldedRun
      rw [if_pos h]
      simpa [failRunExecution_run] using hlen
    · unfold resumeYieldedRun
      rw [if_neg h]
      show (db.run.yieldedExecutions ++ [key]).length ≤ C.MAX_RUN_YIELDED_EXECUTIONS
      rw [List.length_append]
      simp only [List.length_singleton]
      omega

/-- C3 witness: at the ceiling (`MAX = 2`, two stored keys) a further yield
fails the run with the ceiling message; under the ceiling the key is
appended. -/
theorem C3_witness :
    (resumeYieldedRun C3c (findRun dbY) "c" 200 1 9 dbY).run.status = RunStatus.FAILURE ∧
    (resumeYieldedRun C3c (findRun dbY) "c" 200 1 9 dbY).run.output =
      some (yieldLimitMessage C3c.MAX_RUN_YIELDED_EXECUTIONS) ∧
    (resumeYieldedRun C0 (findRun dbStarted) "k" 100 1 9 dbStarted).run.yieldedExecutions =
      ["k"] :=
  ⟨((C3_yield_ceiling C3c (findRun dbY) "c" 200 1 9 dbY).1 (by decide)).2.1,
   ((C3_yield_ceiling C3c (findRun dbY) "c" 200 1 9 dbY).1 (by decide)).2.2.1,
   by
    have h := ((C3_yield_ceiling C0 (findRun dbStarted) "k" 100 1 9 dbStarted).2.1
      (by decide)).1
    simpa using h⟩

/-- C4: a timeout-resume that treats the timeout as forward progress
(cumulative limit not reached, a task was created during the chunk) sets
`endpoint.runChunkExecutionLimit` to
`min (max durationInMs 10000) MAX_RUN_CHUNK_EXECUTION_LIMIT`, which lies in
`[10000, MAX_RUN_CHUNK_EXECUTION_LIMIT]`; at `durationInMs = 9000` the new
limit is 10000. -/
theorem C4_adaptive_limit (C : Consts) (fr : FoundRun) (d now : Nat) (db : DB)
    (h1 : fr.run.executionDuration + d < fr.organization.maximumExecutionTimePerRunInMs)
    (h2 : db.tasks.length ≠ fr.taskCount)
    (h3 : 10000 ≤ C.MAX_RUN_CHUNK_EXECUTION_LIMIT) :
    (resumeRunExecutionAfterTimeout C fr d now db).endpoint.runChunkExecutionLimit =
      min (max d 10000) C.MAX_RUN_CHUNK_EXECUTION_LIMIT ∧
    10000 ≤ (resumeRunExecutionAfterTimeout C fr d now db).endpoint.runChunkExecutionLimit ∧
    (resumeRunExecutionAfterTimeout C fr d now db).endpoint.runChunkExecutionLimit ≤
      C.MAX_RUN_CHUNK_EXECUTION_LIMIT ∧
    (d = 9000 →
      (resumeRunExecutionAfterTimeout C fr d now db).endpoint.runChunkExecutionLimit =
        10000) ∧
    (resumeRunExecutionAfterTimeout C fr d now db).run.executionDuration =
      db.run.executionDuration + d ∧
    (resumeRunExecutionAfterTimeout C fr d now db).run.forceYieldImmediately = false ∧
    (resumeRunExecutionAfterTimeout C fr d now db).queue =
      db.queue ++ [.executeRun fr.run.id (fr.environmentType == .DEVELOPMENT)] := by
  have hA : ¬ (fr.run.executionDuration + d ≥
      fr.organization.maximumExecutionTimePerRunInMs) := by omega
  have hB : (db.tasks.length == fr.taskCount) = false := beq_eq_false_iff_ne.mpr h2
  have hlim : (resumeRunExecutionAfterTimeout C fr d now db).endpoint.runChunkExecutionLimit =
      min (max d 10000) C.MAX_RUN_CHUNK_EXECUTION_LIMIT := by
    simp only [resumeRunExecutionAfterTimeout]
    rw [if_neg hA]
    simp only [hB, Bool.false_eq_true, if_false]
  refine ⟨hlim, ?_, ?_, ?_, ?_, ?_, ?_⟩
  · rw [hlim]; omega
  · rw [hlim]; omega
  · intro hd; rw [hlim, hd]; omega
  · simp only [resumeRunExecutionAfterTimeout]
    rw [if_neg hA]
    simp only [hB, Bool.false_eq_true, if_false]
  · simp only [resumeRunExecutionAfterTimeout]
    rw [if_neg hA]
    simp only [hB, Bool.false_eq_true, if_false]
  · simp only [resumeRunExecutionAfterTimeout]
    rw [if_neg hA]
    simp only [hB, Bool.false_eq_true, if_false]

/-- C4 witness: scenario S4 — 9000 ms chunk, cumulative 9000 < 60000, one
task created during the chunk: the stored chunk limit becomes 10000. -/
theorem C4_witness :
    (resumeRunExecutionAfterTimeout C0 (findRun dbStarted) 9000 11 db4).endpoint.runChunkExecutionLimit = 10000 :=
  (C4_adaptive_limit C0 (findRun dbStarted) 9000 11 db4 (by decide) (by decide)
    (by decide)).2.2.2.1 rfl

theorem attemptNumbersFor_append (l1 l2 : List TaskAttempt) (tid : String) :
    attemptNumbersFor (l1 ++ l2) tid =
      attemptNumbersFor l1 tid ++ attemptNumbersFor l2 tid := by
  simp [attemptNumbersFor, List.filter_append]

theorem attemptNumbersFor_markErrored (l : List TaskAttempt) (tid : String) (aid : Nat)
    (err : String) :
    attemptNumbersFor (l.map (fun b =>
      if b.id == aid then { b with status := AttemptStatus.ERRORED, error := some err }
      else b)) tid = attemptNumbersFor l tid := by
  unfold attemptNumbersFor
  rw [List.filter_map, List.map_map]
  have hp : ((fun (a : TaskAttempt) => a.taskId == tid) ∘ (fun b =>
      if b.id == aid then { b with status := AttemptStatus.ERRORED, error := some err }
      else b)) = fun (a : TaskAttempt) => a.taskId == tid := by
    funext b
    simp only [Function.comp_apply]
    split <;> rfl
  have hn : ((fun (a : TaskAttempt) => a.number) ∘ (fun b =>
      if b.id == aid then { b with status := AttemptStatus.ERRORED, error := some err }
      else b)) = fun (a : TaskAttempt) => a.number := by
    funext b
    simp only [Function.comp_apply]
    split <;> rfl
  rw [hp, hn]

/-- C5: the RETRY_WITH_TASK handler, in one transaction, marks the latest
PENDING attempt (when present) ERRORED with the formatted error, creates a
new PENDING attempt numbered prev+1 (or 1) with `runAt = retryAt`, sets the
task to WAITING, adds the duration and bumps `executionCount` on the run, and
enqueues a ResumeTask job at `retryAt`; under the numbering invariant
(numbers are a permutation of `1..N` and the latest PENDING attempt, when one
exists, carries the maximal number `N`), the numbers remain contiguous
`1..N+1`. -/
theorem C5_retry_with_task (fr : FoundRun) (data : RetryTaskData) (d ec : Nat) (db : DB) :
    (∀ a, latestPendingAttempt db.attempts data.taskId = some a →
      (retryRunWithTask fr data d ec db).attempts =
        db.attempts.map (fun b =>
          if b.id == a.id then
            { b with status := AttemptStatus.ERRORED
                     error := some (formatError data.error) }
          else b) ++
        [{ id := freshAttemptId (db.attempts.map (fun b =>
              if b.id == a.id then
                { b with status := AttemptStatus.ERRORED
                         error := some (formatError data.error) }
              else b))
           taskId := data.taskId, number := a.number + 1, status := .PENDING
           runAt := some data.retryAt, error := none }]) ∧
    (latestPendingAttempt db.attempts data.taskId = none →
      (retryRunWithTask fr data d ec db).attempts =
        db.attempts ++
        [{ id := freshAttemptId db.attempts, taskId := data.taskId, number := 1
           status := .PENDING, runAt := some data.retryAt, error := none }]) ∧
    (retryRunWithTask fr data d ec db).tasks =
      updateTaskRow db.tasks data.taskId (fun t => { t with status := .WAITING }) ∧
    (retryRunWithTask fr data d ec db).run.executionDuration =
      db.run.executionDuration + d ∧
    (retryRunWithTask fr data d ec db).run.executionCount = db.run.executionCount + ec ∧
    (retryRunWithTask fr data d ec db).queue =
      db.queue ++ [.resumeTask data.taskId (some data.retryAt)] ∧
    (∀ N : Nat, (attemptNumbersFor db.attempts data.taskId).Perm (List.range' 1 N) →
      ((latestPendingAttempt db.attempts data.taskId = none ∧ N = 0) ∨
       (∃ a, latestPendingAttempt db.attempts data.taskId = some a ∧ a.number = N)) →
      (attemptNumbersFor (retryRunWithTask fr data d ec db).attempts
        data.taskId).Perm (List.range' 1 (N + 1))) := by
  refine ⟨?_, ?_, ?_, ?_, ?_, ?_, ?_⟩
  · intro a ha
    simp only [retryRunWithTask]
    rw [ha]
  · intro ha
    simp only [retryRunWithTask]
    rw [ha]
  · rcases h : latestPendingAttempt db.attempts data.taskId with _ | a <;>
      simp only [retryRunWithTask, h]
  · rw [retryRunWithTask_run]
  · rw [retryRunWithTask_run]
  · rcases h : latestPendingAttempt db.attempts data.taskId with _ | a <;>
      simp only [retryRunWithTask, h]
  · intro N hperm hcase
    rcases hcase with ⟨hnone, rfl⟩ | ⟨a, ha, rfl⟩
    · have hnil : attemptNumbersFor db.attempts data.taskId = [] := hperm.eq_nil
      have hres : (retryRunWithTask fr data d ec db).attempts =
          db.attempts ++
          [{ id := freshAttemptId db.attempts, taskId := data.taskId, number := 1
             status := .PENDING, runAt := some data.retryAt, error := none }] := by
        simp only [retryRunWithTask]
        rw [hnone]
      rw [hres, attemptNumbersFor_append, hnil]
      have hone : attemptNumbersFor
          [({ id := freshAttemptId db.attempts, taskId := data.taskId, number := 1
              status := .PENDING, runAt := some data.retryAt
              error := none } : TaskAttempt)] data.taskId = [1] := by
        simp [attemptNumbersFor]
      rw [hone]
      exact List.Perm.refl _
    · have hres := (by
        simp only [retryRunWithTask]
        rw [ha] :
        (retryRunWithTask fr data d ec db).attempts =
          db.attempts.map (fun b =>
            if b.id == a.id then
              { b with status := AttemptStatus.ERRORED
                       error := some (formatError data.error) }
            else b) ++
          [{ id := freshAttemptId (db.attempts.map (fun b =>
                if b.id == a.id then
                  { b with status := AttemptStatus.ERRORED
                           error := some (formatError data.error) }
                else b))
             taskId := data.taskId, number := a.number + 1, status := .PENDING
             runAt := some data.retryAt, error := none }])
      rw [hres, attemptNumbersFor_append, attemptNumbersFor_markErrored]
      have hone : attemptNumbersFor
          [({ id := freshAttemptId (db.attempts.map (fun b =>
                if b.id == a.id then
                  { b with status := AttemptStatus.ERRORED
                           error := some (formatError data.error) }
                else b))
              taskId := data.taskId, number := a.number + 1, status := .PENDING
              runAt := some data.retryAt
              error := none } : TaskAttempt)] data.taskId = [a.number + 1] := by
        simp [attemptNumbersFor]
      rw [hone, List.range'_1_concat]
      have hp := hperm.append_right [a.number + 1]
      have : (1 + a.number) = a.number + 1 := Nat.add_comm 1 a.number
      rw [this]
      exact hp

/-- C5 witness: scenario S5 — task `t1` with attempts `#1` ERRORED and `#2`
PENDING; the handler marks `#2` ERRORED, creates `#3` PENDING with
`runAt = 5000`, sets `t1` WAITING, enqueues ResumeTask(t1, 5000), and the
numbers `[1, 2, 3]` stay contiguous. -/
theorem C5_witness :
    (retryRunWithTask (findRun db5) retry5 250 1 db5).tasks =
      updateTaskRow db5.tasks "t1" (fun t => { t with status := .WAITING }) ∧
    (retryRunWithTask (findRun db5) retry5 250 1 db5).queue =
      db5.queue ++ [.resumeTask "t1" (some 5000)] ∧
    (attemptNumbersFor (retryRunWithTask (findRun db5) retry5 250 1 db5).attempts
      "t1").Perm (List.range' 1 3) :=
  ⟨(C5_retry_with_task (findRun db5) retry5 250 1 db5).2.2.1,
   (C5_retry_with_task (findRun db5) retry5 250 1 db5).2.2.2.2.2.1,
   (C5_retry_with_task (findRun db5) retry5 250 1 db5).2.2.2.2.2.2 2 (by decide)
     (Or.inr ⟨attempt2, by decide, rfl⟩)⟩

/-- C6 counterexample: an `ERROR` child of a RESUME_WITH_PARALLEL_TASK
response is dispatched to `#failRunExecution` with the parent `durationInMs`
(300 ms here), not with 0 — so the chunk duration is added twice (parent
update + failure update) and the parent update is not the sole accounting
event: starting from duration 0 the final `executionDuration` is 600, not
300. -/
theorem C6_counterexample :
    dbStarted.run.executionDuration = 0 ∧
    (resumeParallelRunWithTask C0 (findRun dbStarted) "tp" none
        [.error (some "boom")] 300 7 dbStarted).run.executionDuration = 600 ∧
    (resumeParallelRunWithTask C0 (findRun dbStarted) "tp" none
        [.error (some "boom")] 300 7 dbStarted).run.executionDuration ≠
      dbStarted.run.executionDuration + 300 := by
  refine ⟨?_, ?_, ?_⟩ <;> decide

/-- C6 (amended): non-terminal children (RESUME_WITH_TASK, RETRY_WITH_TASK,
YIELD_EXECUTION, the AUTO_YIELD variants, CANCELED) are dispatched with
`durationInMs = 0` and `executionCount = 0`, so when every child is
non-terminal the parent update is the sole accounting event (duration +d,
count +1); the first terminal child (`ERROR`, `INVALID_PAYLOAD`,
`UNRESOLVED_AUTH_ERROR`) wins and short-circuits the iteration, but it is
dispatched with the parent `durationInMs`, adding the chunk duration a second
time (total +2d). -/
theorem C6_amended (C : Consts) (fr : FoundRun) (tid : String) (props : Option String)
    (d now : Nat) (db : DB) :
    (∀ ces : List ChildError, (∀ ce ∈ ces, ce.isTerminal = false) →
      (resumeParallelRunWithTask C fr tid props ces d now db).run.executionDuration =
        db.run.executionDuration + d ∧
      (resumeParallelRunWithTask C fr tid props ces d now db).run.executionCount =
        db.run.executionCount + 1) ∧
    (∀ (pre : List ChildError) (c : ChildError) (post : List ChildError),
      (∀ ce ∈ pre, ce.isTerminal = false) → c.isTerminal = true →
      resumeParallelRunWithTask C fr tid props (pre ++ c :: post) d now db =
        resumeParallelRunWithTask C fr tid props (pre ++ [c]) d now db) ∧
    (∀ (pre : List ChildError) (c : ChildError),
      (∀ ce ∈ pre, ce.isTerminal = false) → c.isTerminal = true →
      (resumeParallelRunWithTask C fr tid props (pre ++ [c]) d now
          db).run.executionDuration = db.run.executionDuration + 2 * d ∧
      (resumeParallelRunWithTask C fr tid props (pre ++ [c]) d now db).run.completedAt =
        some now) := by
  refine ⟨?_, ?_, ?_⟩
  · intro ces hnt
    obtain ⟨dbMid, heq, hrun⟩ := resumeParallelRunWithTask_spec C fr tid props ces d now db
    rw [heq]
    constructor
    · rw [processChildErrors_duration_nonterminal C fr d now ces dbMid hnt, hrun]
    · rw [processChildErrors_count, hrun]
  · intro pre c post hpre hc
    cases props <;>
      · simp only [resumeParallelRunWithTask]
        exact processChildErrors_shortCircuit C fr d now pre c post _ hpre hc
  · intro pre c hpre hc
    obtain ⟨dbMid, heq, hrun⟩ :=
      resumeParallelRunWithTask_spec C fr tid props (pre ++ [c]) d now db
    rw [heq]
    obtain ⟨h1, h2⟩ := processChildErrors_terminal C fr d now pre c dbMid hpre hc
    refine ⟨?_, h2⟩
    rw [h1, hrun]
    show db.run.executionDuration + d + d = db.run.executionDuration + 2 * d
    omega

/-- C6 witness: `C6_amended` at concrete inputs — a single non-terminal
yield child leaves the duration at +300; an ERROR child after a non-empty
non-terminal prefix short-circuits past a trailing child and doubles the
duration. -/
theorem C6_witness :
    (resumeParallelRunWithTask C0 (findRun dbStarted) "tp" none
        [.yieldExecution "ck"] 300 7 dbStarted).run.executionDuration =
      dbStarted.run.executionDuration + 300 ∧
    resumeParallelRunWithTask C0 (findRun dbStarted) "tp" none
        ([.canceled] ++ ChildError.error (some "boom") :: [.yieldExecution "zz"]) 300 7
        dbStarted =
      resumeParallelRunWithTask C0 (findRun dbStarted) "tp" none
        ([.canceled] ++ [ChildError.error (some "boom")]) 300 7 dbStarted ∧
    (resumeParallelRunWithTask C0 (findRun dbStarted) "tp" none
        ([.canceled] ++ [ChildError.error (some "boom")]) 300 7
        dbStarted).run.executionDuration = dbStarted.run.executionDuration + 2 * 300 :=
  ⟨((C6_amended C0 (findRun dbStarted) "tp" none 300 7 dbStarted).1 [.yieldExecution "ck"]
      (by decide)).1,
   (C6_amended C0 (findRun dbStarted) "tp" none 300 7 dbStarted).2.1 [.canceled]
      (ChildError.error (some "boom")) [.yieldExecution "zz"] (by decide) (by decide),
   ((C6_amended C0 (findRun dbStarted) "tp" none 300 7 dbStarted).2.2 [.canceled]
      (ChildError.error (some "boom")) (by decide) (by decide)).1⟩

/-- C7 counterexample: a preprocess failure other than abort (here a 500
response) does enqueue a re-execution of the run: `#failRunExecution` with
reason PREPROCESS and a non-ABORTED status sets the run STARTED and enqueues
an EXECUTE_JOB. -/
theorem C7_counterexample :
    (executePreprocessing (findRun db0) (.notOk 500) 3 db0).queue =
      [.executeRun "r1" false] ∧
    (executePreprocessing (findRun db0) (.notOk 500) 3 db0).queue ≠ [] ∧
    (executePreprocessing (findRun db0) (.notOk 500) 3 db0).run.status =
      RunStatus.STARTED := by
  refine ⟨?_, ?_, ?_⟩ <;> decide

/-- C7 (amended): the preprocess driver calls the endpoint exactly once per
delivery and never retries it; the abort outcome enqueues nothing and marks
the run ABORTED; every other failing outcome (no response, non-2xx,
unparseable JSON, schema-invalid body) sets the run STARTED and enqueues one
EXECUTE_JOB re-execution. -/
theorem C7_amended :
    (∀ (fr : FoundRun) (out : PreprocessOutcome) (now : Nat) (db : DB),
      (executePreprocessing fr out now db).endpointCalls = db.endpointCalls + 1) ∧
    (∀ (fr : FoundRun) (props : Option String) (now : Nat) (db : DB),
      (executePreprocessing fr (.ok true props) now db).queue = db.queue ∧
      (executePreprocessing fr (.ok true props) now db).run.status = RunStatus.ABORTED ∧
      (executePreprocessing fr (.ok true props) now db).run.completedAt = some now) ∧
    (∀ (fr : FoundRun) (now : Nat) (db : DB),
      (executePreprocessing fr .noResponse now db).queue =
        db.queue ++ [.executeRun fr.run.id (fr.environmentType == .DEVELOPMENT)] ∧
      (executePreprocessing fr .noResponse now db).run.status = RunStatus.STARTED) ∧
    (∀ (fr : FoundRun) (st now : Nat) (db : DB),
      (executePreprocessing fr (.notOk st) now db).queue =
        db.queue ++ [.executeRun fr.run.id (fr.environmentType == .DEVELOPMENT)] ∧
      (executePreprocessing fr (.notOk st) now db).run.status = RunStatus.STARTED) ∧
    (∀ (fr : FoundRun) (now : Nat) (db : DB),
      (executePreprocessing fr .invalidJson now db).queue =
        db.queue ++ [.executeRun fr.run.id (fr.environmentType == .DEVELOPMENT)] ∧
      (executePreprocessing fr .invalidJson now db).run.status = RunStatus.STARTED) ∧
    (∀ (fr : FoundRun) (msg : String) (now : Nat) (db : DB),
      (executePreprocessing fr (.schemaInvalid msg) now db).queue =
        db.queue ++ [.executeRun fr.run.id (fr.environmentType == .DEVELOPMENT)] ∧
      (executePreprocessing fr (.schemaInvalid msg) now db).run.status =
        RunStatus.STARTED) := by
  refine ⟨?_, ?_, ?_, ?_, ?_, ?_⟩
  · intro fr out now db
    cases out with
    | noResponse => rfl
    | notOk st => rfl
    | invalidJson => rfl
    | schemaInvalid msg => rfl
    | ok abort props => cases abort <;> rfl
  · intro fr props now db
    exact ⟨rfl, rfl, rfl⟩
  · intro fr now db
    exact ⟨rfl, rfl⟩
  · intro fr st now db
    exact ⟨rfl, rfl⟩
  · intro fr now db
    exact ⟨rfl, rfl⟩
  · intro fr msg now db
    exact ⟨rfl, rfl⟩

/-- C8 counterexample: the RESUME_WITH_TASK handler does not clear the
persisted `forceYieldImmediately` flag — a run entering it with the flag set
leaves it set. -/
theorem C8_counterexample :
    dbFY.run.forceYieldImmediately = true ∧
    (resumeRunWithTask (findRun dbFY) taskA 150 1 dbFY).run.forceYieldImmediately =
      true := by
  refine ⟨?_, ?_⟩ <;> decide

/-- C8 (amended): `forceYieldImmediately` is cleared by the yield handler
(both branches), both auto-yield handlers, the parallel-resume handler, and
every timeout-resume branch; the RESUME_WITH_TASK and RETRY_WITH_TASK
handlers leave the flag exactly as it was. -/
theorem C8_amended :
    (∀ (C : Consts) (fr : FoundRun) (key : String) (d ec now : Nat) (db : DB),
      (resumeYieldedRun C fr key d ec now db).run.forceYieldImmediately = false) ∧
    (∀ (fr : FoundRun) (m : AutoYieldMetadata) (d ec : Nat) (db : DB),
      (resumeAutoYieldedRun fr m d ec db).run.forceYieldImmediately = false) ∧
    (∀ (fr : FoundRun) (dd : AutoYieldCompletedTask) (d ec : Nat) (db : DB),
      (resumeAutoYieldedRunWithCompletedTask fr dd d ec db).run.forceYieldImmediately =
        false) ∧
    (∀ (C : Consts) (fr : FoundRun) (tid : String) (props : Option String)
      (ces : List ChildError) (d now : Nat) (db : DB),
      (resumeParallelRunWithTask C fr tid props ces d now db).run.forceYieldImmediately =
        false) ∧
    (∀ (C : Consts) (fr : FoundRun) (d now : Nat) (db : DB),
      (resumeRunExecutionAfterTimeout C fr d now db).run.forceYieldImmediately = false) ∧
    (∀ (fr : FoundRun) (t : ResumeTaskData) (d ec : Nat) (db : DB),
      (resumeRunWithTask fr t d ec db).run.forceYieldImmediately =
        db.run.forceYieldImmediately) ∧
    (∀ (fr : FoundRun) (r : RetryTaskData) (d ec : Nat) (db : DB),
      (retryRunWithTask fr r d ec db).run.forceYieldImmediately =
        db.run.forceYieldImmediately) := by
  refine ⟨?_, ?_, ?_, ?_, ?_, ?_, ?_⟩
  · intro C fr key d ec now db
    exact resumeYieldedRun_fy C fr key d ec now db
  · intro fr m d ec db
    rw [resumeAutoYieldedRun_run]
  · intro fr dd d ec db
    rw [resumeAutoYieldedRunWithCompletedTask_run]
  · intro C fr tid props ces d now db
    obtain ⟨dbMid, heq, hrun⟩ := resumeParallelRunWithTask_spec C fr tid props ces d now db
    rw [heq]
    exact processChildErrors_fy C fr d now ces dbMid (by rw [hrun])
  · intro C fr d now db
    exact resumeRunExecutionAfterTimeout_fy C fr d now db
  · intro fr t d ec db
    rw [resumeRunWithTask_run]
  · intro fr r d ec db
    rw [retryRunWithTask_run]

/-- C9: an exception anywhere inside the blocked-org section (the check or the
CANCELED store write) is swallowed by the empty `catch`, and `#executeJob`
then behaves exactly as if the organisation were not blocked; the blocked
organisation is cancelled — the run set to CANCELED with `completedAt = now`,
and nothing else done — precisely when the section runs without throwing and
the `BLOCKED_ORGS` substring test matches. -/
theorem C9_blocked_org (C : Consts) (bo : Option String) (co : Bool) (fr : FoundRun)
    (input : ExecInput) (tc : List Task) (out : HttpOutcome) (now : Nat) (db : DB) :
    (executeJob C bo true co fr input tc out now db =
      executeJob C none false co fr input tc out now db) ∧
    (∀ s : String, fr.run.status ≠ RunStatus.CANCELED →
      stringIncludes s fr.run.organizationId = true →
      executeJob C (some s) false co fr input tc out now db =
        .done { db with run :=
          { db.run with status := RunStatus.CANCELED, completedAt := some now } }) := by
  constructor
  · cases h : fr.run.status == RunStatus.CANCELED <;>
      simp [executeJob, h]
  · intro s hst hinc
    have hb : (fr.run.status == RunStatus.CANCELED) = false := by simp [hst]
    simp [executeJob, hb, hinc]

/-- C9 witness: `C9_blocked_org` at a concrete store — with a throw the
result equals the unblocked execution; without a throw, the blocked run
(`BLOCKED_ORGS = "org1-org2"` contains `org1`) is cancelled. -/
theorem C9_witness :
    (executeJob C0 (some "org1-org2") true true (findRun dbStarted) input0 [] .noResponse
        10 dbStarted =
      executeJob C0 none false true (findRun dbStarted) input0 [] .noResponse 10
        dbStarted) ∧
    executeJob C0 (some "org1-org2") false true (findRun dbStarted) input0 [] .noResponse
        10 dbStarted =
      .done { dbStarted with run :=
        { dbStarted.run with status := RunStatus.CANCELED, completedAt := some 10 } } :=
  ⟨(C9_blocked_org C0 (some "org1-org2") true (findRun dbStarted) input0 [] .noResponse 10
      dbStarted).1,
   (C9_blocked_org C0 (some "org1-org2") true (findRun dbStarted) input0 [] .noResponse 10
      dbStarted).2 "org1-org2" (by decide) (by decide)⟩

/-- C10: with parsed metadata requesting a subscription and a non-internal
run, the upsert for event SUCCESS (respectively FAILURE) is performed exactly
when the loaded aggregate contains no subscription with that event —
whatever that subscription's recipient — and the loaded aggregate's
subscription list is the store's rows filtered to `recipientMethod =
"ENDPOINT"`. -/
theorem C10_subscription_guard (fr : FoundRun) (db : DB) (h : ParsedHeaders)
    (m : RunMetadataHeader) (hmeta : h.runMetadata = some m)
    (hint : fr.run.internal = false) :
    (m.successSubscription = true → m.failedSubscription = false →
      ((∃ s ∈ fr.subscriptions, s.event = SubscriptionEvent.SUCCESS) →
        (applyHeaderEffects fr (some h) db).subscriptions = db.subscriptions) ∧
      ((¬ ∃ s ∈ fr.subscriptions, s.event = SubscriptionEvent.SUCCESS) →
        (applyHeaderEffects fr (some h) db).subscriptions =
          (upsertSubscription fr SubscriptionEvent.SUCCESS db).subscriptions)) ∧
    (m.successSubscription = false → m.failedSubscription = true →
      ((∃ s ∈ fr.subscriptions, s.event = SubscriptionEvent.FAILURE) →
        (applyHeaderEffects fr (some h) db).subscriptions = db.subscriptions) ∧
      ((¬ ∃ s ∈ fr.subscriptions, s.event = SubscriptionEvent.FAILURE) →
        (applyHeaderEffects fr (some h) db).subscriptions =
          (upsertSubscription fr SubscriptionEvent.FAILURE db).subscriptions)) ∧
    (findRun db).subscriptions =
      db.subscriptions.filter (fun s => s.recipientMethod == "ENDPOINT") := by
  refine ⟨?_, ?_, rfl⟩
  · intro hsucc hfail
    constructor
    · intro hex
      have hany : (fr.subscriptions.any
          (fun s => s.event == SubscriptionEvent.SUCCESS)) = true := by
        rw [List.any_eq_true]
        obtain ⟨s, hs, he⟩ := hex
        exact ⟨s, hs, by simp [he]⟩
      simp only [applyHeaderEffects, hmeta, hint, hsucc, hfail, hany]
      simp [applyVersionHeader_subscriptions]
    · intro hnex
      have hany : (fr.subscriptions.any
          (fun s => s.event == SubscriptionEvent.SUCCESS)) = false := by
        rw [List.any_eq_false]
        intro s hs hcontra
        exact hnex ⟨s, hs, by simpa using hcontra⟩
      simp only [applyHeaderEffects, hmeta, hint, hsucc, hfail, hany]
      simp only [Bool.not_false, Bool.and_true, Bool.false_and, Bool.and_self, if_true,
        Bool.false_eq_true, if_false, ite_true, ite_false]
      exact upsertSubscription_subscriptions fr SubscriptionEvent.SUCCESS _ db
        (applyVersionHeader_subscriptions fr h.triggerVersion db)
  · intro hsucc hfail
    constructor
    · intro hex
      have hany : (fr.subscriptions.any
          (fun s => s.event == SubscriptionEvent.FAILURE)) = true := by
        rw [List.any_eq_true]
        obtain ⟨s, hs, he⟩ := hex
        exact ⟨s, hs, by simp [he]⟩
      simp only [applyHeaderEffects, hmeta, hint, hsucc, hfail, hany]
      simp [applyVersionHeader_subscriptions]
    · intro hnex
      have hany : (fr.subscriptions.any
          (fun s => s.event == SubscriptionEvent.FAILURE)) = false := by
        rw [List.any_eq_false]
        intro s hs hcontra
        exact hnex ⟨s, hs, by simpa using hcontra⟩
      simp only [applyHeaderEffects, hmeta, hint, hsucc, hfail, hany]
      simp only [Bool.not_false, Bool.and_true, Bool.false_and, Bool.and_self, if_true,
        Bool.false_eq_true, if_false, ite_true, ite_false]
      exact upsertSubscription_subscriptions fr SubscriptionEvent.FAILURE _ db
        (applyVersionHeader_subscriptions fr h.triggerVersion db)

/-- C10 witness: an existing SUCCESS subscription held by a *different*
recipient suppresses the endpoint's SUCCESS upsert; with no SUCCESS
subscription in the loaded aggregate the upsert is performed. -/
theorem C10_witness :
    (applyHeaderEffects (findRun db10) (some headers10) db10).subscriptions =
      db10.subscriptions ∧
    (applyHeaderEffects (findRun db0) (some headers10) db0).subscriptions =
      (upsertSubscription (findRun db0) SubscriptionEvent.SUCCESS db0).subscriptions :=
  ⟨((C10_subscription_guard (findRun db10) db10 headers10 _ rfl rfl).1 rfl rfl).1
      ⟨subOther, by decide, rfl⟩,
   ((C10_subscription_guard (findRun db0) db0 headers10 _ rfl rfl).1 rfl rfl).2
      (by decide)⟩

end TriggerRunExec
